import Mathlib

/-!
Shallow embedding of the Time Balance application core
(app/components/TimeBalanceApp.js and app/utils/storage.js).

JS numbers holding whole minutes or ids are modelled as Int, the
elapsed-seconds counter (only ever set to 0, incremented by the tick, or
increased by 600) as Nat.  A JS value `x` that may be null is modelled as
Option; the JS idiom `x || 0` on an integer is `Option.getD 0` (0 is the
only falsy integer, and 0 || 0 = 0).  React state setters become explicit
state passing on an AppState record.
-/

namespace TimeBalance

/-- A step record, as created by addStep / DEFAULT_OUTCOMES:
`{ id, title, estimatedMin, actualMin, completed, timeSpent }`. -/
structure Step where
  id : Int
  title : String
  estimatedMin : Int
  actualMin : Option Int
  completed : Bool
  timeSpent : Int
deriving Repr, DecidableEq

/-- An outcome record `{ id, title, steps }`. -/
structure Outcome where
  id : Int
  title : String
  steps : List Step
deriving Repr, DecidableEq

/-- The active-timer pointer `{ outcomeId, stepId }` held in the
`activeTimer` React state. -/
structure TimerRef where
  outcomeId : Int
  stepId : Int
deriving Repr, DecidableEq

/-- The core React state of TimeBalanceApp: `outcomes`, `activeTimer`,
`timerSeconds`, `stepNotes` (a string-keyed map of note strings, modelled
as an association list), and `timeBank`. -/
structure AppState where
  outcomes : List Outcome
  activeTimer : Option TimerRef
  timerSeconds : Nat
  stepNotes : List (String × String)
  timeBank : Int
deriving Repr, DecidableEq

/-- `Math.ceil(seconds / 60)` on a natural number of seconds:
ceiling division by 60. -/
def ceilMinutes (seconds : Nat) : Nat :=
  (seconds + 59) / 60

/-- Looks up the step a `{outcomeId, stepId}` pair points at: first
outcome whose id matches, then first of its steps whose id matches.
(The component resolves the active timer this way when rendering and
updating.) -/
def findStep (outcomes : List Outcome) (oid sid : Int) : Option Step :=
  match outcomes.find? (fun o => o.id == oid) with
  | some o => o.steps.find? (fun st => st.id == sid)
  | none => none

/-- `startTimer(outcomeId, stepId)`: sets the active timer pointer and
resets the elapsed-seconds counter to 0.  It touches nothing else. -/
def startTimer (oid sid : Int) (s : AppState) : AppState :=
  { s with activeTimer := some ⟨oid, sid⟩, timerSeconds := 0 }

/-- `pauseTimer()`: when a timer is active, adds
`Math.ceil(timerSeconds / 60)` to the active step's `timeSpent`
(matching by outcome id then step id); in all cases clears the active
timer and resets the counter to 0. -/
def pauseTimer (s : AppState) : AppState :=
  match s.activeTimer with
  | some t =>
      let timeToAdd : Int := ceilMinutes s.timerSeconds
      { s with
        outcomes := s.outcomes.map fun o =>
          if o.id = t.outcomeId then
            { o with steps := o.steps.map fun st =>
                if st.id = t.stepId then
                  { st with timeSpent := st.timeSpent + timeToAdd }
                else st }
          else o,
        activeTimer := none,
        timerSeconds := 0 }
  | none => { s with activeTimer := none, timerSeconds := 0 }

/-- `markStepDone()`: when a timer is active, stores
`timeSpent + Math.ceil(timerSeconds / 60)` as the active step's
`actualMin`, marks it completed and resets its `timeSpent` to 0; in all
cases clears the active timer and resets the counter to 0. -/
def markStepDone (s : AppState) : AppState :=
  match s.activeTimer with
  | some t =>
      let totalTime : Int := ceilMinutes s.timerSeconds
      { s with
        outcomes := s.outcomes.map fun o =>
          if o.id = t.outcomeId then
            { o with steps := o.steps.map fun st =>
                if st.id = t.stepId then
                  { st with
                    actualMin := some (st.timeSpent + totalTime),
                    completed := true,
                    timeSpent := 0 }
                else st }
          else o,
        activeTimer := none,
        timerSeconds := 0 }
  | none => { s with activeTimer := none, timerSeconds := 0 }

/-- `addTime()`: the time-bank borrow.  When a timer is active and the
bank holds at least 10 minutes, spends 10 bank minutes and adds 600
seconds to the elapsed counter (success notification, modelled as the
Bool); otherwise it only shows a warning and changes nothing. -/
def addTime (s : AppState) : Bool × AppState :=
  if s.activeTimer.isSome ∧ 10 ≤ s.timeBank then
    (true, { s with timeBank := s.timeBank - 10,
                    timerSeconds := s.timerSeconds + 600 })
  else
    (false, s)

/-- The ECMA-262 WhiteSpace and LineTerminator characters, the set both
String.prototype.trim and parseInt strip: TAB, LF, VT, FF, CR, SP,
NBSP (U+00A0), ZWNBSP (U+FEFF), and the Unicode Space_Separator
category (U+1680, U+2000..U+200A, U+202F, U+205F, U+3000), plus the
line separators U+2028 and U+2029. -/
def isWsChar (c : Char) : Bool :=
  c = ' ' ∨ c = '\t' ∨ c = '\n' ∨ c = '\r' ∨
  c.val = 0x0B ∨ c.val = 0x0C ∨ c.val = 0xA0 ∨ c.val = 0xFEFF ∨
  c.val = 0x1680 ∨ (0x2000 ≤ c.val ∧ c.val ≤ 0x200A) ∨
  c.val = 0x2028 ∨ c.val = 0x2029 ∨ c.val = 0x202F ∨ c.val = 0x205F ∨ c.val = 0x3000

/-- Drops leading whitespace characters. -/
def trimLeftChars : List Char → List Char
  | [] => []
  | c :: cs => if isWsChar c then trimLeftChars cs else c :: cs

/-- Model of the JS String.prototype.trim: strips leading and trailing
whitespace.  (Defined structurally over the character list so concrete
inputs evaluate.) -/
def jsTrim (s : String) : String :=
  String.mk ((trimLeftChars (trimLeftChars s.data).reverse).reverse)

/-- Decimal digit value of a character, none for a non-digit. -/
def digitVal (c : Char) : Option Nat :=
  if '0' ≤ c ∧ c ≤ '9' then some (c.toNat - '0'.toNat) else none

/-- Hexadecimal digit value of a character, none for a non-digit. -/
def hexDigitVal (c : Char) : Option Nat :=
  if '0' ≤ c ∧ c ≤ '9' then some (c.toNat - '0'.toNat)
  else if 'a' ≤ c ∧ c ≤ 'f' then some (c.toNat - 'a'.toNat + 10)
  else if 'A' ≤ c ∧ c ≤ 'F' then some (c.toNat - 'A'.toNat + 10)
  else none

/-- Reads the remaining digits of an already-started numeral in the
given base, stopping (like parseInt) at the first non-digit. -/
def parsePrefixAux (dv : Char → Option Nat) (base acc : Nat) : List Char → Nat
  | [] => acc
  | c :: cs =>
      match dv c with
      | some d => parsePrefixAux dv base (acc * base + d) cs
      | none => acc

/-- The longest digit prefix of a character list read in the given
base; none when there is no leading digit at all (parseInt's NaN). -/
def parsePrefix (dv : Char → Option Nat) (base : Nat) : List Char → Option Nat
  | [] => none
  | c :: cs =>
      match dv c with
      | some d => some (parsePrefixAux dv base d cs)
      | none => none

/-- The unsigned part of parseInt: a 0x/0X prefix switches to base 16,
otherwise the longest decimal digit prefix is read. -/
def jsParseIntCore : List Char → Option Nat
  | '0' :: 'x' :: rest => parsePrefix hexDigitVal 16 rest
  | '0' :: 'X' :: rest => parsePrefix hexDigitVal 16 rest
  | l => parsePrefix digitVal 10 l

/-- Model of the JS parseInt (radix argument omitted), per ECMA-262:
leading whitespace is skipped, an optional sign is read, a 0x/0X prefix
selects base 16, and the longest digit prefix gives the value — so
"1.5" parses to 1, "1e3" to 1, "-0.5" to -0 = 0, " 12" to 12, "5px" to
5.  none is returned exactly when parseInt yields NaN (no leading digit
after the optional sign, e.g. ".5"); a NaN estimate is a float value
with no Int counterpart, see addStep. -/
def jsParseInt (s : String) : Option Int :=
  match trimLeftChars s.data with
  | '-' :: rest => (jsParseIntCore rest).map (fun n => -(n : Int))
  | '+' :: rest => (jsParseIntCore rest).map (fun n => (n : Int))
  | l => (jsParseIntCore l).map (fun n => (n : Int))

/-- `addOutcome()`: rejects a title that trims to empty
(`if (!newOutcome.trim()) return`), otherwise appends a new outcome with
id `Math.max(...ids, 0) + 1`, the trimmed title and no steps. -/
def addOutcome (title : String) (s : AppState) : AppState :=
  if jsTrim title = "" then s
  else
    let newId : Int := (s.outcomes.map (fun o => o.id)).foldr max 0 + 1
    { s with outcomes := s.outcomes ++ [{ id := newId, title := jsTrim title, steps := [] }] }

/-- `addStep(outcomeId)`: the guard is
`if (!newStep.title.trim() || !newStep.estimatedMin) return`, where
`estimatedMin` is the raw input string (so only the empty string is
falsy; the string "0" passes the guard).  On the matching outcome it
appends a step with id `Math.max(...ids, 0) + 1`, the trimmed title,
`parseInt(estimatedMin)` as the estimate, null actualMin, not completed,
timeSpent 0.  parseInt is modelled by jsParseInt; jsParseInt is none
exactly when parseInt yields NaN, in which case the program appends a
step whose estimatedMin is the float NaN — a state the Int-valued Step
record cannot represent, so the model keeps the state unchanged on that
branch and no claim rests on it. -/
def addStep (outcomeId : Int) (title estimatedMin : String) (s : AppState) : AppState :=
  if jsTrim title = "" ∨ estimatedMin = "" then s
  else
    match jsParseInt estimatedMin with
    | none => s
    | some est =>
        { s with outcomes := s.outcomes.map fun o =>
            if o.id = outcomeId then
              let newStepId : Int := (o.steps.map (fun st => st.id)).foldr max 0 + 1
              { o with steps := o.steps ++
                  [{ id := newStepId, title := jsTrim title, estimatedMin := est,
                     actualMin := none, completed := false, timeSpent := 0 }] }
            else o }

/-- `removeOutcome(outcomeId)`: behind a confirm() dialog (modelled by
the Bool); when confirmed, filters the outcome out of the list.  Timer
state is not touched. -/
def removeOutcome (confirmed : Bool) (outcomeId : Int) (s : AppState) : AppState :=
  if confirmed then
    { s with outcomes := s.outcomes.filter (fun o => o.id != outcomeId) }
  else s

/-- `removeStep(outcomeId, stepId)`: filters the step out of the matching
outcome.  Timer state is not touched. -/
def removeStep (outcomeId stepId : Int) (s : AppState) : AppState :=
  { s with outcomes := s.outcomes.map fun o =>
      if o.id = outcomeId then
        { o with steps := o.steps.filter (fun st => st.id != stepId) }
      else o }

/-- The per-outcome `balance` useMemo (the thermometer value): 0 when the
outcome has no completed steps, else the sum of `estimatedMin` over its
completed steps minus the sum of `actualMin || 0` over them. -/
def balance (o : Outcome) : Int :=
  let completedSteps := o.steps.filter (fun st => st.completed)
  if completedSteps.isEmpty then 0
  else
    let estimatedForCompleted := (completedSteps.map (fun st => st.estimatedMin)).sum
    let actualForCompleted := (completedSteps.map (fun st => st.actualMin.getD 0)).sum
    estimatedForCompleted - actualForCompleted

/-- The `globalBalance` useMemo: a reduce over the outcome list that
skips outcomes with no completed steps and otherwise adds
(sum of estimates over completed steps) - (sum of `actualMin || 0`),
plus `timeBank`.  It is a pure function of the current list and bank. -/
def globalBalance (outcomes : List Outcome) (timeBank : Int) : Int :=
  let outcomeBalance := outcomes.foldl
    (fun total o =>
      let completedSteps := o.steps.filter (fun st => st.completed)
      if completedSteps.isEmpty then total
      else
        let estimatedForCompleted := (completedSteps.map (fun st => st.estimatedMin)).sum
        let actualForCompleted := (completedSteps.map (fun st => st.actualMin.getD 0)).sum
        total + (estimatedForCompleted - actualForCompleted))
    0
  outcomeBalance + timeBank

/-- The `totalEstimatedToday` useMemo: sum of `estimatedMin` over all
steps of all outcomes, completed or not. -/
def totalEstimatedToday (outcomes : List Outcome) : Int :=
  (outcomes.map (fun o => (o.steps.map (fun st => st.estimatedMin)).sum)).sum

/-- The step invariant stated by the spec: a not-completed step has null
`actualMin`.  Bool-valued so concrete states can be evaluated. -/
def stepInvB (st : Step) : Bool :=
  st.completed || st.actualMin.isNone

/-- The invariant over an outcome list: every step of every outcome
satisfies stepInvB. -/
def outcomesInvB (l : List Outcome) : Bool :=
  l.all (fun o => o.steps.all stepInvB)

/-- The invariant over a whole application state. -/
def stateInvB (s : AppState) : Bool :=
  outcomesInvB s.outcomes

/-- JSON values, as produced by JSON.parse: the import/export documents
live here. -/
inductive Json where
  | null : Json
  | bool : Bool → Json
  | num : Int → Json
  | str : String → Json
  | arr : List Json → Json
  | obj : List (String × Json) → Json

/-- JS truthiness of a parsed JSON value: null, false, 0 and "" are
falsy; every array and object (empty or not) is truthy. -/
def truthy : Json → Bool
  | .null => false
  | .bool b => b
  | .num n => decide (n ≠ 0)
  | .str s => decide (s ≠ "")
  | .arr _ => true
  | .obj _ => true

/-- `Array.isArray`. -/
def isArray : Json → Bool
  | .arr _ => true
  | _ => false

/-- JS property access `j.k` on a parsed document: the value of the
first field named k, and null for a missing field or a non-object
(modelling undefined, which like null is falsy and not an array). -/
def jGet (j : Json) (k : String) : Json :=
  match j with
  | .obj fields =>
      match fields.find? (fun kv => kv.1 == k) with
      | some kv => kv.2
      | none => .null
  | _ => .null

/-- The JS `a || b` on parsed values. -/
def jsOr (a b : Json) : Json :=
  if truthy a then a else b

/-- Reads a JS value as an integer (JSON.stringify of our Int fields
produces numbers, so this is exact on exported documents). -/
def asInt : Json → Int
  | .num n => n
  | _ => 0

/-- Reads a JS value as a string. -/
def asString : Json → String
  | .str s => s
  | _ => ""

/-- Reads a nullable integer field (`actualMin`). -/
def asIntOpt : Json → Option Int
  | .num n => some n
  | _ => none

/-- JSON.stringify of a Step (the shape serialized by exportData and by
saveData). -/
def encodeStep (st : Step) : Json :=
  .obj [("id", .num st.id), ("title", .str st.title),
        ("estimatedMin", .num st.estimatedMin),
        ("actualMin", match st.actualMin with | some n => .num n | none => .null),
        ("completed", .bool st.completed), ("timeSpent", .num st.timeSpent)]

/-- JSON.stringify of an Outcome. -/
def encodeOutcome (o : Outcome) : Json :=
  .obj [("id", .num o.id), ("title", .str o.title),
        ("steps", .arr (o.steps.map encodeStep))]

/-- JSON.stringify of the stepNotes map. -/
def encodeNotes (notes : List (String × String)) : Json :=
  .obj (notes.map (fun kv => (kv.1, .str kv.2)))

/-- `exportData()`: the document
`{ outcomes, stepNotes, timeBank, exportDate, version: "1.0" }` built
from the current state (exportDate is the wall clock, passed in). -/
def exportDoc (s : AppState) (exportDate : String) : Json :=
  .obj [("outcomes", .arr (s.outcomes.map encodeOutcome)),
        ("stepNotes", encodeNotes s.stepNotes),
        ("timeBank", .num s.timeBank),
        ("exportDate", .str exportDate),
        ("version", .str "1.0")]

/-- Reading a parsed step object back into the typed state.  The JS code
stores the parsed objects directly; on any document whose steps carry
the exported shape this is exact, and junk fields fall back to the
zero-like defaults of property access (0, "", null, falsy). -/
def decodeStep (j : Json) : Step :=
  { id := asInt (jGet j "id"), title := asString (jGet j "title"),
    estimatedMin := asInt (jGet j "estimatedMin"),
    actualMin := asIntOpt (jGet j "actualMin"),
    completed := truthy (jGet j "completed"),
    timeSpent := asInt (jGet j "timeSpent") }

/-- Reading the steps array of a parsed outcome object. -/
def decodeSteps : Json → List Step
  | .arr l => l.map decodeStep
  | _ => []

/-- Reading a parsed outcome object. -/
def decodeOutcome (j : Json) : Outcome :=
  { id := asInt (jGet j "id"), title := asString (jGet j "title"),
    steps := decodeSteps (jGet j "steps") }

/-- Reading the parsed stepNotes object. -/
def decodeNotes : Json → List (String × String)
  | .obj fields => fields.map (fun kv => (kv.1, asString kv.2))
  | _ => []

/-- `importData` (the reader.onload body, after JSON.parse succeeded):
validates `if (!data.outcomes || !Array.isArray(data.outcomes)) throw`
(arrays are always truthy, so the test is exactly "is an array"); on
failure the catch block signals an error and no state is set; on success
it sets `outcomes := data.outcomes`,
`stepNotes := data.stepNotes || {}` and `timeBank := data.timeBank || 0`,
leaving the timer state alone.  The Bool is the success/failure
notification. -/
def importData (doc : Json) (s : AppState) : Bool × AppState :=
  match jGet doc "outcomes" with
  | .arr elems =>
      (true, { s with
        outcomes := elems.map decodeOutcome,
        stepNotes := decodeNotes (jsOr (jGet doc "stepNotes") (.obj [])),
        timeBank := asInt (jsOr (jGet doc "timeBank") (.num 0)) })
  | _ => (false, s)

/-- A concrete state with an active timer and 15 bank minutes, for the
borrow example. -/
def exBank15 : AppState :=
  { outcomes := [], activeTimer := some ⟨1, 1⟩, timerSeconds := 100,
    stepNotes := [], timeBank := 15 }

/-- A concrete state with an active timer and only 5 bank minutes. -/
def exBank5 : AppState :=
  { outcomes := [], activeTimer := some ⟨1, 1⟩, timerSeconds := 100,
    stepNotes := [], timeBank := 5 }

/-- A concrete state with one outcome, a note and a nonzero bank, used to
observe that rejected imports mutate nothing. -/
def exState0 : AppState :=
  { outcomes := [⟨1, "A", []⟩], activeTimer := none, timerSeconds := 0,
    stepNotes := [("k", "v")], timeBank := 3 }

/-- The malformed import document of the spec example:
outcomes holds a string instead of an array. -/
def exDocBadOutcomes : Json :=
  Json.obj [("outcomes", Json.str "not-an-array")]

/-- Concrete state for the spec timer example: one step with timeSpent 5,
its timer active at 125 elapsed seconds. -/
def exTimer125 : AppState :=
  { outcomes := [⟨1, "A", [⟨1, "s", 10, none, false, 5⟩]⟩],
    activeTimer := some ⟨1, 1⟩, timerSeconds := 125, stepNotes := [], timeBank := 0 }

/-- A minimal concrete state with one empty outcome. -/
def exStateA : AppState :=
  { outcomes := [⟨1, "A", []⟩], activeTimer := none, timerSeconds := 0,
    stepNotes := [], timeBank := 0 }

/-- An import document whose outcomes field is a well-formed array but
whose single step carries completed=false together with a non-null
actualMin — the array check accepts it. -/
def exDocBadStep : Json :=
  Json.obj [("outcomes", Json.arr [Json.obj
    [("id", Json.num 1), ("title", Json.str "A"),
     ("steps", Json.arr [Json.obj
       [("id", Json.num 1), ("title", Json.str "s"),
        ("estimatedMin", Json.num 30), ("actualMin", Json.num 5),
        ("completed", Json.bool false), ("timeSpent", Json.num 0)]])]])]

/-!
Storage adapter (app/utils/storage.js).  The environment a call runs in
is a world record: whether window/localStorage exist (isBrowser), whether
the availability probe succeeds, whether the real setItem call would
still throw (quota can be hit by a large write even when the tiny probe
passed), and the two key-value stores.  localStorage holds the
stringified value; stringify on our Json values is injective, so the
serialized string is modelled by the Json value itself.  memoryStorage
is a JS Map whose set never throws.
-/

/-- The world a storage call executes in. -/
structure StorageWorld where
  isBrowser : Bool
  available : Bool
  setItemThrows : Bool
  localStore : List (String × Json)
  memory : List (String × Json)

/-- Insertion into one of the key-value stores. -/
def mapInsert (m : List (String × Json)) (k : String) (v : Json) : List (String × Json) :=
  (k, v) :: m.filter (fun kv => kv.1 != k)

/-- Lookup in one of the key-value stores. -/
def mapLookup (m : List (String × Json)) (k : String) : Option Json :=
  match m.find? (fun kv => kv.1 == k) with
  | some kv => some kv.2
  | none => none

/-- `storage.set(key, value)`: returns false without writing during SSR;
otherwise, when the availability probe passes and setItem does not
throw, writes the serialized value to localStorage, mirrors the value
into the memory map and returns true; when the probe fails, or setItem
throws and the catch block runs, stores into the memory map and returns
true.  Every failure is caught inside; the caller only ever sees the
Bool. -/
def storageSet (w : StorageWorld) (k : String) (v : Json) : Bool × StorageWorld :=
  if w.isBrowser = false then
    (false, w)
  else if w.available then
    if w.setItemThrows then
      (true, { w with memory := mapInsert w.memory k v })
    else
      (true, { w with localStore := mapInsert w.localStore k v,
                      memory := mapInsert w.memory k v })
  else
    (true, { w with memory := mapInsert w.memory k v })

/-! Helper lemmas. -/

/-- find? commutes with mapping a function that preserves the predicate. -/
theorem find?_map_pres {α : Type} (f : α → α) (p : α → Bool)
    (h : ∀ a, p (f a) = p a) (l : List α) :
    (l.map f).find? p = (l.find? p).map f := by
  induction l with
  | nil => rfl
  | cons a tl ih =>
      rw [List.map_cons]
      cases hpa : p a
      · have h1 : ¬ p (f a) = true := by rw [h a, hpa]; exact Bool.false_ne_true
        have h2 : ¬ p a = true := by rw [hpa]; exact Bool.false_ne_true
        rw [List.find?_cons_of_neg _ h1, List.find?_cons_of_neg _ h2, ih]
      · have h1 : p (f a) = true := by rw [h a]; exact hpa
        rw [List.find?_cons_of_pos _ h1, List.find?_cons_of_pos _ hpa]
        rfl

/-- Looking up a key just inserted returns the inserted value. -/
theorem mapLookup_mapInsert (m : List (String × Json)) (k : String) (v : Json) :
    mapLookup (mapInsert m k v) k = some v := by
  have hk : ((k, v).1 == k) = true := by simp
  simp [mapLookup, mapInsert, List.find?_cons_of_pos _ hk]

/-- Claim C9: startTimer leaves the outcomes list (and notes and bank)
entirely unchanged, sets the active pointer, and resets the
elapsed-seconds counter to 0 — so seconds elapsed on a previously active
timer are discarded without being credited anywhere, as the concrete
instance (a running timer at 59s whose step still has timeSpent 0 and
null actualMin after switching) exhibits. -/
theorem c9_startTimer_frame : ∀ (oid sid : Int) (s : AppState),
    ((startTimer oid sid s).outcomes = s.outcomes ∧
     (startTimer oid sid s).timerSeconds = 0 ∧
     (startTimer oid sid s).activeTimer = some ⟨oid, sid⟩ ∧
     (startTimer oid sid s).stepNotes = s.stepNotes ∧
     (startTimer oid sid s).timeBank = s.timeBank) ∧
    (let s1 : AppState :=
      { outcomes := [⟨1, "A", [⟨1, "one", 30, none, false, 0⟩, ⟨2, "two", 30, none, false, 0⟩]⟩],
        activeTimer := some ⟨1, 1⟩, timerSeconds := 59, stepNotes := [], timeBank := 0 }
     findStep (startTimer 1 2 s1).outcomes 1 1 = some ⟨1, "one", 30, none, false, 0⟩ ∧
     (startTimer 1 2 s1).timerSeconds = 0 ∧
     (startTimer 1 2 s1).activeTimer = some ⟨1, 2⟩) := by
  intro oid sid s
  exact ⟨⟨rfl, rfl, rfl, rfl, rfl⟩, rfl, rfl, rfl⟩

/-- Claim C10: removeStep and removeOutcome never touch the active timer
pointer or the elapsed-seconds counter, even when the deleted step is the
timer target; the concrete instance shows the pointer left dangling at a
step that no longer exists. -/
theorem c10_remove_frame :
    (∀ (oid sid : Int) (s : AppState),
      (removeStep oid sid s).activeTimer = s.activeTimer ∧
      (removeStep oid sid s).timerSeconds = s.timerSeconds) ∧
    (∀ (c : Bool) (oid : Int) (s : AppState),
      (removeOutcome c oid s).activeTimer = s.activeTimer ∧
      (removeOutcome c oid s).timerSeconds = s.timerSeconds) ∧
    (let s2 : AppState :=
      { outcomes := [⟨1, "A", [⟨1, "one", 30, none, false, 0⟩]⟩],
        activeTimer := some ⟨1, 1⟩, timerSeconds := 42, stepNotes := [], timeBank := 0 }
     (removeStep 1 1 s2).activeTimer = some ⟨1, 1⟩ ∧
     (removeStep 1 1 s2).timerSeconds = 42 ∧
     findStep (removeStep 1 1 s2).outcomes 1 1 = none) := by
  refine ⟨fun oid sid s => ⟨rfl, rfl⟩, fun c oid s => ?_, rfl, rfl, by decide⟩
  cases c <;> exact ⟨rfl, rfl⟩

/-- Claim C3: the time-bank borrow succeeds exactly when a timer is
active and the bank holds at least 10 minutes, in which case the bank
drops by 10 and the elapsed counter grows by 600 seconds (and nothing
else changes, fixed by the record update); otherwise it is a rejected
no-op returning the state unchanged. -/
theorem c3_addTime_borrow : ∀ s : AppState,
    (s.activeTimer.isSome = true → 10 ≤ s.timeBank →
      addTime s = (true, { s with timeBank := s.timeBank - 10,
                                  timerSeconds := s.timerSeconds + 600 })) ∧
    (¬ (s.activeTimer.isSome = true ∧ 10 ≤ s.timeBank) → addTime s = (false, s)) := by
  intro s
  constructor
  · intro h1 h2
    unfold addTime
    rw [if_pos ⟨h1, h2⟩]
  · intro h
    unfold addTime
    rw [if_neg h]

/-- Witness for C3, the two spec examples: with an active timer and
timeBank 15 the borrow yields bank 5 and 600 extra seconds; with
timeBank 5 it is rejected and the state is unchanged. -/
theorem c3_addTime_borrow_witness :
    (addTime exBank15
      = (true, { outcomes := [], activeTimer := some ⟨1, 1⟩, timerSeconds := 700,
                 stepNotes := [], timeBank := 5 })) ∧
    addTime exBank5 = (false, exBank5) := by
  constructor
  · have h := (c3_addTime_borrow exBank15).1 rfl (by decide)
    simpa [exBank15] using h
  · exact (c3_addTime_borrow exBank5).2 (by decide)

/-- Claim C4: import accepts a document exactly when its outcomes field
is an array (arrays are the only truthy values passing Array.isArray, so
the two-part JS test collapses to this); when the check fails the import
signals failure and returns the state unchanged — no partial mutation. -/
theorem c4_import_validation : ∀ (doc : Json) (s : AppState),
    ((importData doc s).1 = isArray (jGet doc "outcomes")) ∧
    (isArray (jGet doc "outcomes") = false → importData doc s = (false, s)) := by
  intro doc s
  cases h : jGet doc "outcomes" <;> simp [importData, isArray, h]

/-- Witness for C4: the spec example document with outcomes set to the
string "not-an-array" is rejected and mutates nothing. -/
theorem c4_import_validation_witness :
    isArray (jGet exDocBadOutcomes "outcomes") = false ∧
    importData exDocBadOutcomes exState0 = (false, exState0) := by
  exact ⟨rfl, (c4_import_validation exDocBadOutcomes exState0).2 rfl⟩

/-- Claim C8: in a browser where the availability probe passes and the
real setItem call does not throw, storage.set writes the value to
localStorage, mirrors it into the in-process memory map and returns
true; and whenever set reports failure it has changed nothing (failure
is never an exception — storageSet is a total function into Bool — only
the returned Bool). -/
theorem c8_storage_set_mirror : ∀ (w : StorageWorld) (k : String) (v : Json),
    (w.isBrowser = true → w.available = true → w.setItemThrows = false →
      storageSet w k v = (true, { w with localStore := mapInsert w.localStore k v,
                                         memory := mapInsert w.memory k v }) ∧
      mapLookup (storageSet w k v).2.memory k = some v ∧
      mapLookup (storageSet w k v).2.localStore k = some v) ∧
    ((storageSet w k v).1 = false → (storageSet w k v).2 = w) := by
  intro w k v
  constructor
  · intro hb ha ht
    have he : storageSet w k v = (true, { w with localStore := mapInsert w.localStore k v,
                                                 memory := mapInsert w.memory k v }) := by
      unfold storageSet
      rw [hb, ha, ht]
      simp
    exact ⟨he, by rw [he]; exact mapLookup_mapInsert _ _ _,
               by rw [he]; exact mapLookup_mapInsert _ _ _⟩
  · intro hf
    unfold storageSet at hf ⊢
    by_cases hb : w.isBrowser = false
    · rw [if_pos hb]
    · rw [if_neg hb] at hf ⊢
      by_cases ha : w.available
      · rw [if_pos ha] at hf
        by_cases ht : w.setItemThrows
        · rw [if_pos ht] at hf
          exact absurd hf (by simp)
        · rw [if_neg ht] at hf
          exact absurd hf (by simp)
      · rw [if_neg ha] at hf
        exact absurd hf (by simp)

/-- Witness for C8: a healthy browser world with empty stores; set
writes the key to both stores and returns true. -/
theorem c8_storage_set_mirror_witness :
    storageSet ⟨true, true, false, [], []⟩ "timebalance-outcomes" (Json.num 1)
      = (true, ⟨true, true, false, [("timebalance-outcomes", Json.num 1)],
                [("timebalance-outcomes", Json.num 1)]⟩) ∧
    mapLookup (storageSet ⟨true, true, false, [], []⟩ "timebalance-outcomes"
        (Json.num 1)).2.memory "timebalance-outcomes" = some (Json.num 1) := by
  have h := (c8_storage_set_mirror ⟨true, true, false, [], []⟩
    "timebalance-outcomes" (Json.num 1)).1 rfl rfl rfl
  exact ⟨h.1, h.2.1⟩

/-- Subtracting the two filtered sums equals one sum of per-step
contributions where steps failing the filter contribute 0. -/
theorem filter_sum_sub (p : Step → Bool) (f g : Step → Int) (l : List Step) :
    ((l.filter p).map f).sum - ((l.filter p).map g).sum
      = (l.map (fun st => if p st then f st - g st else 0)).sum := by
  induction l with
  | nil => simp
  | cons x t ih =>
      by_cases h : p x = true
      · simp only [List.filter_cons, if_pos h, List.map_cons, List.sum_cons]
        rw [← ih]
        ring
      · simp only [List.filter_cons, if_neg h, List.map_cons, List.sum_cons]
        rw [ih]
        ring

/-- The per-outcome balance written as a single sum over all steps:
completed steps contribute estimate minus recorded actual, incomplete
steps contribute 0. -/
theorem balance_eq_perStep (o : Outcome) :
    balance o = (o.steps.map
      (fun st => if st.completed then st.estimatedMin - st.actualMin.getD 0 else 0)).sum := by
  unfold balance
  by_cases h : (o.steps.filter (fun st => st.completed)).isEmpty
  · have hnil : o.steps.filter (fun st => st.completed) = [] := by
      exact List.isEmpty_iff.mp h
    have hall : ∀ st ∈ o.steps, ¬ (st.completed = true) := by
      intro st hst
      exact (List.filter_eq_nil_iff.mp hnil) st hst
    simp only [h, if_true]
    symm
    apply List.sum_eq_zero
    intro x hx
    rcases List.mem_map.mp hx with ⟨st, hst, hx2⟩
    rw [← hx2, if_neg (hall st hst)]
  · simp only [h, if_false, Bool.false_eq_true]
    exact filter_sum_sub _ _ _ _

/-- The reduce inside globalBalance, with a generalized accumulator,
equals the accumulator plus the sum of per-outcome balances. -/
theorem globalBalance_foldl (l : List Outcome) : ∀ a : Int,
    l.foldl
      (fun total o =>
        let completedSteps := o.steps.filter (fun st => st.completed)
        if completedSteps.isEmpty then total
        else
          let estimatedForCompleted := (completedSteps.map (fun st => st.estimatedMin)).sum
          let actualForCompleted := (completedSteps.map (fun st => st.actualMin.getD 0)).sum
          total + (estimatedForCompleted - actualForCompleted)) a
      = a + (l.map balance).sum := by
  induction l with
  | nil => intro a; simp
  | cons x t ih =>
      intro a
      rw [List.foldl_cons, List.map_cons, List.sum_cons, ih]
      by_cases h : (x.steps.filter (fun st => st.completed)).isEmpty
      · simp only [balance, h, if_true]
        ring
      · simp only [balance, h, Bool.false_eq_true, if_false]
        ring

/-- Claim C1: the global balance decomposes as the sum of per-outcome
balances plus the time bank; each per-outcome balance is the sum over
its completed steps of estimate minus recorded actual minutes, with
incomplete steps contributing 0; and an outcome with no completed steps
has balance 0.  Both sides are pure functions recomputed from the
current outcome list. -/
theorem c1_global_balance : ∀ (outcomes : List Outcome) (timeBank : Int),
    globalBalance outcomes timeBank = (outcomes.map balance).sum + timeBank ∧
    (∀ o : Outcome, balance o = (o.steps.map
      (fun st => if st.completed then st.estimatedMin - st.actualMin.getD 0 else 0)).sum) ∧
    (∀ o : Outcome, o.steps.filter (fun st => st.completed) = [] → balance o = 0) := by
  intro outcomes timeBank
  refine ⟨?_, balance_eq_perStep, ?_⟩
  · unfold globalBalance
    rw [globalBalance_foldl]
    ring
  · intro o h
    unfold balance
    rw [h]
    rfl

/-- Witness for C1: a two-outcome list, one with a completed step
(estimate 60, actual 45) and one with only an incomplete step; the
decomposition holds and the second outcome has balance 0. -/
theorem c1_global_balance_witness :
    globalBalance [⟨1, "A", [⟨1, "s", 60, some 45, true, 0⟩]⟩,
                   ⟨2, "B", [⟨1, "t", 30, none, false, 0⟩]⟩] 7
      = ([⟨1, "A", [⟨1, "s", 60, some 45, true, 0⟩]⟩,
          ⟨2, "B", [⟨1, "t", 30, none, false, 0⟩]⟩].map balance).sum + 7 ∧
    balance ⟨2, "B", [⟨1, "t", 30, none, false, 0⟩]⟩ = 0 := by
  refine ⟨(c1_global_balance _ 7).1, ?_⟩
  exact (c1_global_balance [] 7).2.2 ⟨2, "B", [⟨1, "t", 30, none, false, 0⟩]⟩ (by decide)

/-- After the id-matching nested update both timer-ending operations
perform, looking the active step up again returns the updated step. -/
theorem findStep_update (outcomes : List Outcome) (oid sid : Int) (st : Step)
    (G : Step → Step) (hGid : ∀ x, (G x).id = x.id)
    (hfind : findStep outcomes oid sid = some st) :
    findStep (outcomes.map (fun o =>
      if o.id = oid then
        { o with steps := o.steps.map (fun x => if x.id = sid then G x else x) }
      else o)) oid sid = some (G st) := by
  unfold findStep at hfind ⊢
  split at hfind
  next o ho =>
      have hFid : ∀ a : Outcome,
          ((fun o => if o.id = oid then
              { o with steps := o.steps.map (fun x => if x.id = sid then G x else x) }
            else o) a).id = a.id := by
        intro a
        by_cases hc : a.id = oid <;> simp [hc]
      have hpF : ∀ a : Outcome,
          (((fun o => if o.id = oid then
              { o with steps := o.steps.map (fun x => if x.id = sid then G x else x) }
            else o) a).id == oid) = (a.id == oid) := by
        intro a
        rw [hFid a]
      rw [find?_map_pres _ _ hpF outcomes, ho]
      have hoid : o.id = oid := by
        have hp := List.find?_some ho
        exact eq_of_beq hp
      simp only [Option.map_some']
      rw [if_pos hoid]
      have hq : ∀ x : Step,
          (((fun x => if x.id = sid then G x else x) x).id == sid) = (x.id == sid) := by
        intro x
        by_cases hc : x.id = sid
        · simp [hc, hGid x]
        · simp [hc]
      rw [find?_map_pres _ _ hq o.steps, hfind]
      have hsid : st.id = sid := by
        have hp := List.find?_some hfind
        exact eq_of_beq hp
      simp only [Option.map_some']
      rw [if_pos hsid]
  next ho => exact Option.noConfusion hfind

/-- Claim C2: both timer-ending operations convert elapsed seconds with
ceiling division by 60 (the bounds conjuncts pin ceilMinutes as the
ceiling); pausing adds that many minutes to the active step's timeSpent,
completing stores timeSpent plus that many minutes as actualMin, marks
the step completed and resets its timeSpent to 0; both clear the timer
and the counter. -/
theorem c2_ceil_timer : ∀ (s : AppState) (t : TimerRef) (st : Step),
    s.activeTimer = some t →
    findStep s.outcomes t.outcomeId t.stepId = some st →
    (findStep (pauseTimer s).outcomes t.outcomeId t.stepId
        = some { st with timeSpent := st.timeSpent + (ceilMinutes s.timerSeconds : Int) } ∧
     (pauseTimer s).activeTimer = none ∧ (pauseTimer s).timerSeconds = 0) ∧
    (findStep (markStepDone s).outcomes t.outcomeId t.stepId
        = some { st with actualMin := some (st.timeSpent + (ceilMinutes s.timerSeconds : Int)),
                         completed := true, timeSpent := 0 } ∧
     (markStepDone s).activeTimer = none ∧ (markStepDone s).timerSeconds = 0) ∧
    (s.timerSeconds ≤ 60 * ceilMinutes s.timerSeconds ∧
     60 * ceilMinutes s.timerSeconds < s.timerSeconds + 60) := by
  intro s t st hat hfind
  have hpo : (pauseTimer s).outcomes = s.outcomes.map (fun o =>
      if o.id = t.outcomeId then
        { o with steps := o.steps.map (fun x =>
            if x.id = t.stepId then
              { x with timeSpent := x.timeSpent + (ceilMinutes s.timerSeconds : Int) }
            else x) }
      else o) := by
    simp only [pauseTimer, hat]
  have hpa : (pauseTimer s).activeTimer = none := by
    simp only [pauseTimer, hat]
  have hpt : (pauseTimer s).timerSeconds = 0 := by
    simp only [pauseTimer, hat]
  have hdo : (markStepDone s).outcomes = s.outcomes.map (fun o =>
      if o.id = t.outcomeId then
        { o with steps := o.steps.map (fun x =>
            if x.id = t.stepId then
              { x with actualMin := some (x.timeSpent + (ceilMinutes s.timerSeconds : Int)),
                       completed := true, timeSpent := 0 }
            else x) }
      else o) := by
    simp only [markStepDone, hat]
  have hda : (markStepDone s).activeTimer = none := by
    simp only [markStepDone, hat]
  have hdt : (markStepDone s).timerSeconds = 0 := by
    simp only [markStepDone, hat]
  refine ⟨⟨?_, hpa, hpt⟩, ⟨?_, hda, hdt⟩, ?_, ?_⟩
  · rw [hpo]
    exact findStep_update _ _ _ _ _ (fun x => rfl) hfind
  · rw [hdo]
    exact findStep_update _ _ _ _ _ (fun x => rfl) hfind
  · unfold ceilMinutes
    omega
  · unfold ceilMinutes
    omega

/-- Witness for C2, the spec example: timeSpent 5 and 125 elapsed
seconds give ceil(125/60)=3, so completing stores actualMin 8 and resets
timeSpent, while pausing would have accumulated timeSpent 8. -/
theorem c2_ceil_timer_witness :
    findStep (markStepDone exTimer125).outcomes 1 1 = some ⟨1, "s", 10, some 8, true, 0⟩ ∧
    findStep (pauseTimer exTimer125).outcomes 1 1 = some ⟨1, "s", 10, none, false, 8⟩ ∧
    (markStepDone exTimer125).timerSeconds = 0 := by
  have h := c2_ceil_timer exTimer125 ⟨1, 1⟩ ⟨1, "s", 10, none, false, 5⟩ rfl rfl
  refine ⟨?_, ?_, h.2.1.2.2⟩
  · have hd := h.2.1.1
    simpa using hd
  · have hp := h.1.1
    simpa using hp

/-- Evaluation checks pinning the JS builtin models on the inputs the
number and text fields can feed them: parseInt truncates at the first
non-digit ("1.5", "1e3", "5px"), reads "-0.5" as -0 = 0, skips leading
whitespace, honours a 0x prefix, and is NaN (none) only with no leading
digit; trim removes NBSP and the other ECMA whitespace characters. -/
theorem jsBuiltin_eval_checks :
    jsParseInt "1.5" = some 1 ∧
    jsParseInt "1e3" = some 1 ∧
    jsParseInt "-0.5" = some 0 ∧
    jsParseInt " 12" = some 12 ∧
    jsParseInt "5px" = some 5 ∧
    jsParseInt "+7" = some 7 ∧
    jsParseInt "0x10" = some 16 ∧
    jsParseInt ".5" = none ∧
    jsParseInt "px5" = none ∧
    jsTrim "\u00A0" = "" ∧
    jsTrim "\u00A0x\u00A0" = "x" ∧
    jsTrim "\u000B\u000C\uFEFF\u2003" = "" := by
  decide

/-- Counterexample to Claim C5: the estimate guard only tests string
truthiness, so the non-positive estimate "0" passes; addStep on a state
with one empty outcome does mutate the outcomes list, appending a step
with estimatedMin 0. -/
theorem c5_counterexample :
    addStep 1 "x" "0" exStateA ≠ exStateA ∧
    (addStep 1 "x" "0" exStateA).outcomes
      = [⟨1, "A", [⟨1, "x", 0, none, false, 0⟩]⟩] := by
  constructor
  · intro h
    have h2 : (addStep 1 "x" "0" exStateA).outcomes = exStateA.outcomes := by rw [h]
    revert h2
    decide
  · decide

/-- Claim C5 as amended: an empty or whitespace-only title (addOutcome
and addStep) and an empty estimate string (addStep) are silently
ignored, returning the state unmutated; but any non-empty estimate
string parsing to an integer n — positive or not — passes the guard and
the step is appended with estimatedMin n. -/
theorem c5_amended :
    (∀ (ti : String) (s : AppState), jsTrim ti = "" → addOutcome ti s = s) ∧
    (∀ (oid : Int) (ti em : String) (s : AppState),
      jsTrim ti = "" ∨ em = "" → addStep oid ti em s = s) ∧
    (∀ (oid : Int) (ti em : String) (s : AppState) (n : Int),
      ¬ jsTrim ti = "" → ¬ em = "" → jsParseInt em = some n →
      (addStep oid ti em s).outcomes = s.outcomes.map (fun o =>
        if o.id = oid then
          { o with steps := o.steps ++
              [{ id := (o.steps.map (fun st => st.id)).foldr max 0 + 1,
                 title := jsTrim ti, estimatedMin := n, actualMin := none,
                 completed := false, timeSpent := 0 }] }
        else o)) := by
  refine ⟨?_, ?_, ?_⟩
  · intro ti s h
    unfold addOutcome
    rw [if_pos h]
  · intro oid ti em s h
    unfold addStep
    rw [if_pos h]
  · intro oid ti em s n h1 h2 h3
    unfold addStep
    rw [if_neg ?hg, h3]
    case hg => exact fun hc => hc.elim h1 h2

/-- Witness for the amended C5: a whitespace-only title (plain spaces
for addOutcome, a lone NBSP for addStep) and an empty estimate string
are no-ops on the concrete state, while the estimates "0" and "-0.5"
(which parseInt reads as -0 = 0) both append a zero-estimate step. -/
theorem c5_amended_witness :
    addOutcome "  " exStateA = exStateA ∧
    addStep 1 "x" "" exStateA = exStateA ∧
    addStep 1 "\u00A0" "5" exStateA = exStateA ∧
    (addStep 1 "x" "0" exStateA).outcomes = exStateA.outcomes.map (fun o =>
      if o.id = 1 then
        { o with steps := o.steps ++
            [{ id := (o.steps.map (fun st => st.id)).foldr max 0 + 1,
               title := jsTrim "x", estimatedMin := 0, actualMin := none,
               completed := false, timeSpent := 0 }] }
      else o) ∧
    (addStep 1 "x" "-0.5" exStateA).outcomes = exStateA.outcomes.map (fun o =>
      if o.id = 1 then
        { o with steps := o.steps ++
            [{ id := (o.steps.map (fun st => st.id)).foldr max 0 + 1,
               title := jsTrim "x", estimatedMin := 0, actualMin := none,
               completed := false, timeSpent := 0 }] }
      else o) := by
  refine ⟨c5_amended.1 "  " exStateA (by decide),
          c5_amended.2.1 1 "x" "" exStateA (Or.inr rfl),
          c5_amended.2.1 1 "\u00A0" "5" exStateA (Or.inl (by decide)),
          c5_amended.2.2 1 "x" "0" exStateA 0 (by decide) (by decide) (by decide),
          c5_amended.2.2 1 "x" "-0.5" exStateA 0 (by decide) (by decide) (by decide)⟩

/-- A step survives serialization and rereading unchanged. -/
theorem decodeStep_encodeStep (st : Step) : decodeStep (encodeStep st) = st := by
  cases st with
  | mk i ti e a c ts => cases a <;> rfl

/-- A step list survives serialization and rereading unchanged. -/
theorem decodeSteps_map_encodeStep (l : List Step) :
    (l.map encodeStep).map decodeStep = l := by
  induction l with
  | nil => rfl
  | cons a tl ih => rw [List.map_cons, List.map_cons, decodeStep_encodeStep, ih]

/-- An outcome survives serialization and rereading unchanged. -/
theorem decodeOutcome_encodeOutcome (o : Outcome) :
    decodeOutcome (encodeOutcome o) = o := by
  cases o with
  | mk i ti steps =>
      show Outcome.mk i ti ((steps.map encodeStep).map decodeStep) = Outcome.mk i ti steps
      rw [decodeSteps_map_encodeStep]

/-- An outcome list survives serialization and rereading unchanged. -/
theorem decodeOutcomes_map_encodeOutcome (l : List Outcome) :
    (l.map encodeOutcome).map decodeOutcome = l := by
  induction l with
  | nil => rfl
  | cons a tl ih => rw [List.map_cons, List.map_cons, decodeOutcome_encodeOutcome, ih]

/-- The notes map survives serialization and rereading unchanged. -/
theorem decodeNotes_encodeNotes (notes : List (String × String)) :
    decodeNotes (encodeNotes notes) = notes := by
  induction notes with
  | nil => rfl
  | cons kv tl ih =>
      cases kv with
      | mk k v =>
          show (k, v) :: decodeNotes (encodeNotes tl) = (k, v) :: tl
          rw [ih]

/-- Reading timeBank back through the `data.timeBank || 0` idiom returns
the original integer (0 is falsy but the fallback is 0 itself). -/
theorem asInt_jsOr_num (n : Int) : asInt (jsOr (Json.num n) (Json.num 0)) = n := by
  by_cases h : n = 0
  · simp [jsOr, truthy, asInt, h]
  · simp [jsOr, truthy, asInt, h]

/-- Claim C6: importing the document produced by export reproduces the
exported outcomes list, step-notes map and timeBank exactly (and is
accepted), for every state and every state the import is applied to. -/
theorem c6_export_import_round_trip : ∀ (s sPrev : AppState) (date : String),
    importData (exportDoc s date) sPrev
      = (true, { sPrev with outcomes := s.outcomes,
                            stepNotes := s.stepNotes,
                            timeBank := s.timeBank }) := by
  intro s sPrev date
  have hout : jGet (exportDoc s date) "outcomes"
      = Json.arr (s.outcomes.map encodeOutcome) := rfl
  have hnotes : jsOr (jGet (exportDoc s date) "stepNotes") (Json.obj [])
      = encodeNotes s.stepNotes := rfl
  have hbank : jGet (exportDoc s date) "timeBank" = Json.num s.timeBank := rfl
  unfold importData
  rw [hout]
  simp only [hnotes, hbank]
  rw [decodeOutcomes_map_encodeOutcome, decodeNotes_encodeNotes, asInt_jsOr_num]

/-- Mapping a stepInvB-preserving function over an outcome list
preserves the invariant. -/
theorem outcomesInvB_map (f : Outcome → Outcome)
    (h : ∀ o, o.steps.all stepInvB = true → (f o).steps.all stepInvB = true)
    (l : List Outcome) (hl : outcomesInvB l = true) :
    outcomesInvB (l.map f) = true := by
  unfold outcomesInvB at hl ⊢
  rw [List.all_eq_true] at hl ⊢
  intro o ho
  rcases List.mem_map.mp ho with ⟨o0, ho0, hfo⟩
  rw [← hfo]
  exact h o0 (hl o0 ho0)

/-- Mapping a stepInvB-preserving function over a step list preserves
the per-outcome invariant. -/
theorem stepsAll_map (g : Step → Step)
    (h : ∀ x, stepInvB x = true → stepInvB (g x) = true)
    (l : List Step) (hl : l.all stepInvB = true) :
    (l.map g).all stepInvB = true := by
  rw [List.all_eq_true] at hl ⊢
  intro x hx
  rcases List.mem_map.mp hx with ⟨x0, hx0, hgx⟩
  rw [← hgx]
  exact h x0 (hl x0 hx0)

/-- Counterexample to Claim C7: import only checks that outcomes is an
array, so a document whose step has completed=false together with
actualMin=5 is accepted, and the resulting state violates the
"actualMin is null until completed" invariant even though the starting
state satisfied it. -/
theorem c7_counterexample :
    stateInvB exStateA = true ∧
    (importData exDocBadStep exStateA).1 = true ∧
    stateInvB (importData exDocBadStep exStateA).2 = false := by
  exact ⟨rfl, rfl, rfl⟩

/-- Claim C7 as amended: adding a step, pausing, completing and
borrowing all preserve the invariant that a not-completed step has null
actualMin, and so does a rejected import; but an accepted import
replaces the outcomes wholesale, so the invariant afterwards is exactly
the invariant of the decoded document, which need not hold. -/
theorem c7_amended :
    (∀ (oid : Int) (ti em : String) (s : AppState),
      stateInvB s = true → stateInvB (addStep oid ti em s) = true) ∧
    (∀ s : AppState, stateInvB s = true → stateInvB (pauseTimer s) = true) ∧
    (∀ s : AppState, stateInvB s = true → stateInvB (markStepDone s) = true) ∧
    (∀ s : AppState, stateInvB s = true → stateInvB (addTime s).2 = true) ∧
    (∀ (doc : Json) (s : AppState),
      (importData doc s).1 = false → stateInvB s = true →
      stateInvB (importData doc s).2 = true) ∧
    (∀ (doc : Json) (s : AppState) (elems : List Json),
      jGet doc "outcomes" = Json.arr elems →
      stateInvB (importData doc s).2 = outcomesInvB (elems.map decodeOutcome)) := by
  refine ⟨?_, ?_, ?_, ?_, ?_, ?_⟩
  · intro oid ti em s hs
    unfold addStep
    by_cases hg : jsTrim ti = "" ∨ em = ""
    · rw [if_pos hg]; exact hs
    · rw [if_neg hg]
      cases hp : jsParseInt em with
      | none => exact hs
      | some est =>
          refine outcomesInvB_map _ ?_ s.outcomes hs
          intro o ho
          by_cases hc : o.id = oid
          · simp only [if_pos hc]
            rw [List.all_append]
            simp [ho, stepInvB]
          · simp only [if_neg hc]
            exact ho
  · intro s hs
    unfold pauseTimer
    cases hat : s.activeTimer with
    | none => exact hs
    | some t =>
        refine outcomesInvB_map _ ?_ s.outcomes hs
        intro o ho
        by_cases hc : o.id = t.outcomeId
        · simp only [if_pos hc]
          refine stepsAll_map _ ?_ o.steps ho
          intro x hx
          by_cases hcx : x.id = t.stepId
          · simp only [if_pos hcx]
            exact hx
          · simp only [if_neg hcx]
            exact hx
        · simp only [if_neg hc]
          exact ho
  · intro s hs
    unfold markStepDone
    cases hat : s.activeTimer with
    | none => exact hs
    | some t =>
        refine outcomesInvB_map _ ?_ s.outcomes hs
        intro o ho
        by_cases hc : o.id = t.outcomeId
        · simp only [if_pos hc]
          refine stepsAll_map _ ?_ o.steps ho
          intro x hx
          by_cases hcx : x.id = t.stepId
          · simp only [if_pos hcx]
            simp [stepInvB]
          · simp only [if_neg hcx]
            exact hx
        · simp only [if_neg hc]
          exact ho
  · intro s hs
    unfold addTime
    by_cases hc : s.activeTimer.isSome = true ∧ 10 ≤ s.timeBank
    · rw [if_pos hc]; exact hs
    · rw [if_neg hc]; exact hs
  · intro doc s hf hs
    unfold importData at hf ⊢
    cases hj : jGet doc "outcomes" with
    | arr elems =>
        rw [hj] at hf
        exact Bool.noConfusion hf
    | null => exact hs
    | bool b => exact hs
    | num n => exact hs
    | str v => exact hs
    | obj fields => exact hs
  · intro doc s elems hj
    unfold importData
    rw [hj]
    rfl

/-- Witness for the amended C7: concrete preservation instances for
adding a step to the invariant-satisfying state and for a rejected
import. -/
theorem c7_amended_witness :
    stateInvB (addStep 1 "x" "5" exStateA) = true ∧
    stateInvB (importData exDocBadOutcomes exStateA).2 = true := by
  constructor
  · exact c7_amended.1 1 "x" "5" exStateA rfl
  · exact c7_amended.2.2.2.2.1 exDocBadOutcomes exStateA rfl rfl

end TimeBalance
